import Mathlib

/-!
A verification development for the Cube.js MCP bridge server (src/server.py).

The request-dispatch and error-normalization layer of the server is embedded
shallowly: the JSON values exchanged with the upstream API become an inductive
type `Json`, serialization (Python json.dumps with its default separators and
ensure_ascii escaping) becomes `Json.dumps`, the parse used by response.json()
becomes `Json.parse`, and `make_request` / `check_health` become functions of
the configuration and an abstract upstream outcome (a transport failure or a
response with a status and a body).  JSON numbers are modelled as integers:
floating point is outside the embedding.  Lone-surrogate escape sequences,
which Python strings can hold but Lean characters cannot, are rejected by the
modelled parse.
-/

/-- A JSON-compatible value as handled by the bridge: Python None, bool, int,
str, list and dict (an association list in insertion order).  Floats are not
modelled. -/
inductive Json where
  | null
  | bool (b : Bool)
  | num (i : Int)
  | str (s : String)
  | arr (items : List Json)
  | obj (pairs : List (String × Json))

/-- The opening-brace character, U+007B. -/
def lbrace : Char := Char.ofNat 123

/-- The closing-brace character, U+007D. -/
def rbrace : Char := Char.ofNat 125

/-- Decimal digit predicate on code points (0-9), as Python json uses. -/
def pyIsDigit (c : Char) : Bool := decide (48 ≤ c.toNat ∧ c.toNat ≤ 57)

/-- JSON whitespace: space, tab, line feed, carriage return. -/
def pyIsWs (c : Char) : Bool :=
  decide (c.toNat = 32 ∨ c.toNat = 9 ∨ c.toNat = 10 ∨ c.toNat = 13)

/-- The character of one decimal digit. -/
def digitChar (d : Nat) : Char := Char.ofNat (48 + d)

/-- The character of one lowercase hexadecimal digit, as json.dumps emits. -/
def hexDigitChar (d : Nat) : Char :=
  if d < 10 then Char.ofNat (48 + d) else Char.ofNat (87 + d)

/-- Four lowercase hex digits of a code unit below 0x10000, most significant
first: the XXXX of a \uXXXX escape. -/
def hexQuad (n : Nat) : List Char :=
  [hexDigitChar (n / 4096 % 16), hexDigitChar (n / 256 % 16),
   hexDigitChar (n / 16 % 16), hexDigitChar (n % 16)]

/-- How json.dumps (ensure_ascii=True, the default used by the server) writes
one character of a string: two-character escapes for quote, backslash and the
five named control characters; \uXXXX for the remaining control characters and
for every non-ASCII character, using a surrogate pair above U+FFFF; printable
ASCII is emitted verbatim. -/
def encodeChar (c : Char) : List Char :=
  if c.toNat = 34 then ['\\', '"']
  else if c.toNat = 92 then ['\\', '\\']
  else if c.toNat = 8 then ['\\', 'b']
  else if c.toNat = 9 then ['\\', 't']
  else if c.toNat = 10 then ['\\', 'n']
  else if c.toNat = 12 then ['\\', 'f']
  else if c.toNat = 13 then ['\\', 'r']
  else if c.toNat < 32 then '\\' :: 'u' :: hexQuad c.toNat
  else if c.toNat ≤ 126 then [c]
  else if c.toNat < 65536 then '\\' :: 'u' :: hexQuad c.toNat
  else
    ('\\' :: 'u' :: hexQuad (55296 + (c.toNat - 65536) / 1024)) ++
    ('\\' :: 'u' :: hexQuad (56320 + (c.toNat - 65536) % 1024))

/-- The escaped characters of a string body followed by the closing quote. -/
def encStrBody : List Char → List Char
  | [] => ['"']
  | c :: cs => encodeChar c ++ encStrBody cs

/-- A serialized JSON string: opening quote, escaped body, closing quote. -/
def encodeStr (s : String) : List Char := '"' :: encStrBody s.data

/-- Decimal digit characters, most significant first, by structural recursion
on a fuel bound (any fuel at least the number itself is enough). -/
def natToCharsAux : Nat → Nat → List Char
  | 0, n => [digitChar n]
  | fuel + 1, n =>
    if n < 10 then [digitChar n]
    else natToCharsAux fuel (n / 10) ++ [digitChar (n % 10)]

/-- Decimal digit characters of a natural number, most significant first. -/
def natToChars (n : Nat) : List Char := natToCharsAux n n

/-- Decimal characters of an integer, as Python repr writes it: a minus sign
for negatives, then the digits of the absolute value. -/
def intToChars (i : Int) : List Char :=
  if i < 0 then '-' :: natToChars i.natAbs else natToChars i.toNat

mutual

/-- Serialization of one JSON value, character by character: the output of
json.dumps with its default separators (a comma-space between items, a
colon-space after each key). -/
def encVal : Json → List Char
  | .null => "null".data
  | .bool true => "true".data
  | .bool false => "false".data
  | .num i => intToChars i
  | .str s => encodeStr s
  | .arr xs => '[' :: encItems xs
  | .obj kvs => lbrace :: encPairs kvs

/-- Everything after the opening bracket of an array, closing bracket included. -/
def encItems : List Json → List Char
  | [] => [']']
  | x :: xs => encVal x ++ encItemsMore xs

/-- The remaining items of an array after the first, each preceded by the
comma-space separator, closing bracket included. -/
def encItemsMore : List Json → List Char
  | [] => [']']
  | x :: xs => ',' :: ' ' :: (encVal x ++ encItemsMore xs)

/-- Everything after the opening brace of an object, closing brace included. -/
def encPairs : List (String × Json) → List Char
  | [] => [rbrace]
  | (k, v) :: kvs => encodeStr k ++ ':' :: ' ' :: (encVal v ++ encPairsMore kvs)

/-- The remaining key-value pairs of an object after the first, each preceded
by the comma-space separator, closing brace included. -/
def encPairsMore : List (String × Json) → List Char
  | [] => [rbrace]
  | (k, v) :: kvs =>
    ',' :: ' ' :: (encodeStr k ++ ':' :: ' ' :: (encVal v ++ encPairsMore kvs))

end

/-- json.dumps of a value, with the default separators and ensure_ascii. -/
def Json.dumps (j : Json) : String := ⟨encVal j⟩

/-- Drop leading JSON whitespace. -/
def skipWs : List Char → List Char
  | [] => []
  | c :: cs => if pyIsWs c then skipWs cs else c :: cs

/-- The value of one hexadecimal digit character, upper or lower case. -/
def hexVal (c : Char) : Option Nat :=
  if 48 ≤ c.toNat ∧ c.toNat ≤ 57 then some (c.toNat - 48)
  else if 97 ≤ c.toNat ∧ c.toNat ≤ 102 then some (c.toNat - 87)
  else if 65 ≤ c.toNat ∧ c.toNat ≤ 70 then some (c.toNat - 55)
  else none

/-- Read exactly four hex digits, returning their value below 0x10000. -/
def readHexQuad : List Char → Option (Nat × List Char)
  | a :: b :: c :: d :: rest =>
    match hexVal a, hexVal b, hexVal c, hexVal d with
    | some va, some vb, some vc, some vd =>
      some (va * 4096 + vb * 256 + vc * 16 + vd, rest)
    | _, _, _, _ => none
  | _ => none

/-- The character denoted by a single-letter escape after a backslash. -/
def unescapeChar (e : Char) : Option Char :=
  if e.toNat = 34 then some '"'
  else if e.toNat = 92 then some '\\'
  else if e.toNat = 47 then some '/'
  else if e.toNat = 98 then some (Char.ofNat 8)
  else if e.toNat = 102 then some (Char.ofNat 12)
  else if e.toNat = 110 then some '\n'
  else if e.toNat = 114 then some '\r'
  else if e.toNat = 116 then some '\t'
  else none

/-- Read the body of a JSON string after its opening quote, decoding escapes;
surrogate pairs recombine into one character, lone surrogates are rejected
(Lean characters cannot hold them), and unescaped control characters are
rejected as Python json does in strict mode.  Structural on fuel; each step
consumes at least one input character, so fuel beyond the input length is
enough. -/
def readStrBody : Nat → List Char → Option (List Char × List Char)
  | 0, _ => none
  | fuel + 1, input =>
    match input with
    | [] => none
    | c :: rest =>
      if c.toNat = 34 then some ([], rest)
      else if c.toNat = 92 then
        match rest with
        | [] => none
        | e :: rest2 =>
          if e.toNat = 117 then
            match readHexQuad rest2 with
            | none => none
            | some (n, rest3) =>
              if 55296 ≤ n ∧ n ≤ 56319 then
                match rest3 with
                | '\\' :: 'u' :: rest4 =>
                  match readHexQuad rest4 with
                  | none => none
                  | some (m, rest5) =>
                    if 56320 ≤ m ∧ m ≤ 57343 then
                      match readStrBody fuel rest5 with
                      | some (s, r) =>
                        some (Char.ofNat (65536 + (n - 55296) * 1024 + (m - 56320)) :: s, r)
                      | none => none
                    else none
                | _ => none
              else if 56320 ≤ n ∧ n ≤ 57343 then none
              else
                match readStrBody fuel rest3 with
                | some (s, r) => some (Char.ofNat n :: s, r)
                | none => none
          else
            match unescapeChar e with
            | none => none
            | some d =>
              match readStrBody fuel rest2 with
              | some (s, r) => some (d :: s, r)
              | none => none
      else if c.toNat < 32 then none
      else
        match readStrBody fuel rest with
        | some (s, r) => some (c :: s, r)
        | none => none

/-- Read a complete JSON string after its opening quote. -/
def readStr (input : List Char) : Option (String × List Char) :=
  match readStrBody (input.length + 1) input with
  | some (s, r) => some (⟨s⟩, r)
  | none => none

/-- Digit run at the head of the input, and the remainder. -/
def digitSpan : List Char → List Char × List Char
  | [] => ([], [])
  | c :: cs =>
    if pyIsDigit c then ((c :: (digitSpan cs).1), (digitSpan cs).2)
    else ([], c :: cs)

/-- The numeric value of a digit run, most significant first. -/
def digitsVal (l : List Char) : Nat :=
  l.foldl (fun a c => a * 10 + (c.toNat - 48)) 0

/-- Read the integer part of a JSON number: a single 0, or a nonzero digit
followed by any digits (leading zeros are not part of a JSON number). -/
def readIntPart : List Char → Option (Nat × List Char)
  | [] => none
  | c :: cs =>
    if c.toNat = 48 then some (0, cs)
    else if pyIsDigit c then
      some (digitsVal (c :: (digitSpan cs).1), (digitSpan cs).2)
    else none

mutual

/-- Read one JSON value.  Structural on fuel; the claims instantiate fuel
above the input length, which suffices.  Fractions and exponents (floats) are
outside the model. -/
def readVal : Nat → List Char → Option (Json × List Char)
  | 0, _ => none
  | fuel + 1, input =>
    match input with
    | [] => none
    | c :: rest =>
      if c.toNat = 110 then
        match rest with
        | 'u' :: 'l' :: 'l' :: r => some (.null, r)
        | _ => none
      else if c.toNat = 116 then
        match rest with
        | 'r' :: 'u' :: 'e' :: r => some (.bool true, r)
        | _ => none
      else if c.toNat = 102 then
        match rest with
        | 'a' :: 'l' :: 's' :: 'e' :: r => some (.bool false, r)
        | _ => none
      else if c.toNat = 34 then
        match readStr rest with
        | some (s, r) => some (.str s, r)
        | none => none
      else if c.toNat = 91 then readItems fuel (skipWs rest)
      else if c.toNat = 123 then readPairs fuel (skipWs rest)
      else if c.toNat = 45 then
        match readIntPart rest with
        | some (n, r) => some (.num (-(n : Int)), r)
        | none => none
      else if pyIsDigit c then
        match readIntPart (c :: rest) with
        | some (n, r) => some (.num (n : Int), r)
        | none => none
      else none

/-- Read the items of an array after its opening bracket (whitespace already
skipped): a closing bracket, or a first value followed by more items. -/
def readItems : Nat → List Char → Option (Json × List Char)
  | 0, _ => none
  | fuel + 1, input =>
    match input with
    | [] => none
    | c :: rest =>
      if c.toNat = 93 then some (.arr [], rest)
      else
        match readVal fuel (c :: rest) with
        | none => none
        | some (v, r) =>
          match readItemsMore fuel (skipWs r) with
          | some (vs, r2) => some (.arr (v :: vs), r2)
          | none => none

/-- After one array item: a closing bracket ends the array, a comma demands
another value. -/
def readItemsMore : Nat → List Char → Option (List Json × List Char)
  | 0, _ => none
  | fuel + 1, input =>
    match input with
    | [] => none
    | c :: rest =>
      if c.toNat = 93 then some ([], rest)
      else if c.toNat = 44 then
        match readVal fuel (skipWs rest) with
        | none => none
        | some (v, r) =>
          match readItemsMore fuel (skipWs r) with
          | some (vs, r2) => some (v :: vs, r2)
          | none => none
      else none

/-- Read the pairs of an object after its opening brace (whitespace already
skipped): a closing brace, or a first quoted key, colon and value followed by
more pairs. -/
def readPairs : Nat → List Char → Option (Json × List Char)
  | 0, _ => none
  | fuel + 1, input =>
    match input with
    | [] => none
    | c :: rest =>
      if c.toNat = 125 then some (.obj [], rest)
      else if c.toNat = 34 then
        match readStr rest with
        | none => none
        | some (k, r1) =>
          match skipWs r1 with
          | ':' :: r2 =>
            match readVal fuel (skipWs r2) with
            | none => none
            | some (v, r3) =>
              match readPairsMore fuel (skipWs r3) with
              | some (kvs, r4) => some (.obj ((k, v) :: kvs), r4)
              | none => none
          | _ => none
      else none

/-- After one object pair: a closing brace ends the object, a comma demands
another quoted key, colon and value. -/
def readPairsMore : Nat → List Char → Option (List (String × Json) × List Char)
  | 0, _ => none
  | fuel + 1, input =>
    match input with
    | [] => none
    | c :: rest =>
      if c.toNat = 125 then some ([], rest)
      else if c.toNat = 44 then
        match skipWs rest with
        | d :: r1 =>
          if d.toNat = 34 then
            match readStr r1 with
            | none => none
            | some (k, r2) =>
              match skipWs r2 with
              | ':' :: r3 =>
                match readVal fuel (skipWs r3) with
                | none => none
                | some (v, r4) =>
                  match readPairsMore fuel (skipWs r4) with
                  | some (kvs, r5) => some ((k, v) :: kvs, r5)
                  | none => none
              | _ => none
          else none
        | [] => none
      else none

end

/-- json.loads of a body, as response.json() performs it: leading and trailing
whitespace allowed, exactly one value, nothing after it. -/
def Json.parse (s : String) : Option Json :=
  match readVal (s.data.length + 1) (skipWs s.data) with
  | some (j, r) => if skipWs r = [] then some j else none
  | none => none

/-- Python dict lookup after json.loads keeps the last binding of a duplicated
key, so lookups scan with a fold that lets later pairs win. -/
def lookupLast (pairs : List (String × Json)) (k : String) : Option Json :=
  pairs.foldl (fun acc kv => if kv.1 = k then some kv.2 else acc) none

/-- The value at a key of a JSON object; none for any other value shape. -/
def Json.getField : Json → String → Option Json
  | .obj pairs, k => lookupLast pairs k
  | _, _ => none

/-! ## The server model

`src/server.py` reads two environment values once at start (base URL and
token) and routes every operation through `make_request`, except the health
check, which builds its own root URL and request.  The HTTP layer (httpx) is
external: a call either fails at transport level with a cause description, or
yields a response with a status code and a body; `UpstreamOutcome` abstracts
exactly that. -/

/-- The process-wide configuration: CUBEJS_API_BASE_URL and CUBEJS_API_TOKEN. -/
structure Config where
  baseUrl : String
  token : String

/-- The configuration defaults when the environment sets nothing. -/
def defaultConfig : Config :=
  { baseUrl := "http://localhost:4000/cubejs-api/v1", token := "" }

/-- get_headers: Content-Type always; Authorization exactly when the token is
non-empty (Python truthiness of a string), carrying the token verbatim. -/
def get_headers (token : String) : List (String × String) :=
  [("Content-Type", "application/json")] ++
    (if token = "" then [] else [("Authorization", token)])

/-- Python str.rstrip with a slash argument: drop every trailing slash. -/
def pyRstripSlash (s : String) : String :=
  ⟨(s.data.reverse.dropWhile fun c => c.toNat == 47).reverse⟩

/-- Python str.lstrip with a slash argument: drop every leading slash. -/
def pyLstripSlash (s : String) : String :=
  ⟨s.data.dropWhile fun c => c.toNat == 47⟩

/-- The URL make_request builds: base with trailing slashes stripped, one
slash, endpoint with leading slashes stripped. -/
def make_request_url (base endpoint : String) : String :=
  pyRstripSlash base ++ "/" ++ pyLstripSlash endpoint

/-- Python str.upper on the method name (ASCII letters, as the methods are). -/
def pyUpper (s : String) : String := ⟨s.data.map Char.toUpper⟩

/-- One HTTP request as the server hands it to the client: method, URL,
headers, optional query parameters, optional JSON body, timeout. -/
structure HttpCallSpec where
  method : String
  url : String
  headers : List (String × String)
  params : Option (List (String × String))
  body : Option Json
  timeoutSeconds : Nat

/-- The request make_request sends for a method, endpoint, query parameters
and JSON body: the joined URL, get_headers, and the fixed 30-second timeout. -/
def make_request_call (cfg : Config) (method endpoint : String)
    (params : Option (List (String × String))) (json_data : Option Json) :
    HttpCallSpec :=
  { method := method
    url := make_request_url cfg.baseUrl endpoint
    headers := get_headers cfg.token
    params := params
    body := json_data
    timeoutSeconds := 30 }

/-- The list_cubes tool: GET meta, no parameters, no body. -/
def list_cubes_call (cfg : Config) : HttpCallSpec :=
  make_request_call cfg "GET" "meta" none none

/-- The execute_query tool: GET load with the query object serialized by
json.dumps into the single query parameter. -/
def execute_query_call (cfg : Config) (query : Json) : HttpCallSpec :=
  make_request_call cfg "GET" "load" (some [("query", Json.dumps query)]) none

/-- The execute_query_post tool: POST load with body wrapping the query. -/
def execute_query_post_call (cfg : Config) (query : Json) : HttpCallSpec :=
  make_request_call cfg "POST" "load" none (some (.obj [("query", query)]))

/-- The get_sql tool: GET sql with the serialized query parameter. -/
def get_sql_call (cfg : Config) (query : Json) : HttpCallSpec :=
  make_request_call cfg "GET" "sql" (some [("query", Json.dumps query)]) none

/-- The get_schema tool: GET schema. -/
def get_schema_call (cfg : Config) : HttpCallSpec :=
  make_request_call cfg "GET" "schema" none none

/-- The refresh tool: POST refresh with body wrapping the query. -/
def refresh_call (cfg : Config) (query : Json) : HttpCallSpec :=
  make_request_call cfg "POST" "refresh" none (some (.obj [("query", query)]))

/-- The refresh_pre_aggregations tool: POST pre-aggregations/refresh with the
caller payload sent verbatim as the body. -/
def refresh_pre_aggregations_call (cfg : Config) (payload : Json) : HttpCallSpec :=
  make_request_call cfg "POST" "pre-aggregations/refresh" none (some payload)

/-- The scheduled_refresh tool: POST refresh/schedule with the caller payload
sent verbatim as the body. -/
def scheduled_refresh_call (cfg : Config) (schedule : Json) : HttpCallSpec :=
  make_request_call cfg "POST" "refresh/schedule" none (some schedule)

/-- The cube meta resource: GET meta, like list_cubes. -/
def get_meta_resource_call (cfg : Config) : HttpCallSpec :=
  make_request_call cfg "GET" "meta" none none

/-- The raw_request escape hatch: upper-case the method name, then forward
method, endpoint, parameters and body to make_request unchanged. -/
def raw_request_call (cfg : Config) (method endpoint : String)
    (params : Option (List (String × String))) (json_data : Option Json) :
    HttpCallSpec :=
  make_request_call cfg (pyUpper method) endpoint params json_data

/-- What the HTTP layer gives back for one request: a transport-level failure
with its cause description (the str of the raised exception), or a response
with a status code and a raw body. -/
inductive UpstreamOutcome where
  | transportError (cause : String)
  | response (status : Nat) (body : String)

/-- How make_request ends: a returned payload, or a raised RuntimeError with
its message (the RequestFailed condition of the spec). -/
inductive CallOutcome where
  | success (payload : Json)
  | raised (msg : String)

/-- Modelled from the httpx library (an external collaborator): the str of the
HTTPStatusError that raise_for_status raises for a non-2xx response.  Only two
facts about it are relied on: it is determined by the status and URL, and it
contains the decimal status code. -/
def httpStatusErrorMessage (status : Nat) (url : String) : String :=
  (if status < 200 then "Informational response"
   else if status < 300 then "Success"
   else if status < 400 then "Redirect response"
   else if status < 500 then "Client error"
   else "Server error") ++ " " ++ toString status ++ " for url " ++ url

/-- Modelled from the json library (an external collaborator): the str of the
JSONDecodeError that response.json() raises on a body that is not JSON.  Only
its existence and determinism are relied on, never its exact text. -/
def jsonDecodeMessage (body : String) : String :=
  "No JSON value could be decoded from " ++ body

/-- make_request, as a function of the upstream outcome.

The Python control flow (src/server.py lines 22-46): raise_for_status raises
HTTPStatusError on every non-2xx status; on 2xx the body is parsed and
returned (a parse failure escapes to the generic handler and is re-raised as
RuntimeError).  The HTTPStatusError handler re-parses the body: if it is a
JSON object, the dict-get of its error key (defaulting to the str of the
HTTPStatusError) is wrapped as a returned error mapping; if the body is not
JSON, or not an object (dict-get on a non-dict raises AttributeError into the
bare except), a RuntimeError with the API-Request-failed prefix is raised.  A
transport failure reaches the generic handler and raises a RuntimeError with
the Request-failed prefix. -/
def make_request (cfg : Config) (method endpoint : String)
    (params : Option (List (String × String))) (json_data : Option Json)
    (upstream : UpstreamOutcome) : CallOutcome :=
  match upstream with
  | .transportError cause => .raised ("Request failed: " ++ cause)
  | .response status body =>
    if 200 ≤ status ∧ status < 300 then
      match Json.parse body with
      | some payload => .success payload
      | none => .raised ("Request failed: " ++ jsonDecodeMessage body)
    else
      match Json.parse body with
      | some (.obj pairs) =>
        .success (.obj [("error",
          (lookupLast pairs "error").getD
            (.str (httpStatusErrorMessage status (make_request_url cfg.baseUrl endpoint))))])
      | _ =>
        .raised ("API Request failed: " ++
          httpStatusErrorMessage status (make_request_url cfg.baseUrl endpoint))

/-- The prefix of the input before the first occurrence of a marker: the first
element of a Python str.split on that marker. -/
def charsBeforeMarker (marker : List Char) : List Char → List Char
  | [] => []
  | c :: rest =>
    if marker.isPrefixOf (c :: rest) then []
    else c :: charsBeforeMarker marker rest

/-- The root URL check_health recovers: the part of the base URL before the
/cubejs-api marker (the whole base URL when the marker is absent). -/
def check_health_root (baseUrl : String) : String :=
  ⟨charsBeforeMarker "/cubejs-api".data baseUrl.data⟩

/-- The URL check_health probes: the root with trailing slashes stripped, then
/readyz. -/
def check_health_url (baseUrl : String) : String :=
  pyRstripSlash (check_health_root baseUrl) ++ "/readyz"

/-- The request check_health sends: a plain GET of the readyz URL with a
5-second timeout and no headers set by the server (in particular none named
Authorization). -/
def check_health_call (cfg : Config) : HttpCallSpec :=
  { method := "GET"
    url := check_health_url cfg.baseUrl
    headers := []
    params := none
    body := none
    timeoutSeconds := 5 }

/-- check_health, as a function of the upstream outcome: OK on status 200, the
Unhealthy string on any other received status, the Unreachable string when the
request raised.  The whole request sits inside a try/except Exception, and
string formatting cannot fail, so the function is total: no outcome raises. -/
def check_health (cfg : Config) (upstream : UpstreamOutcome) : String :=
  match upstream with
  | .response status _ =>
    if status = 200 then "OK" else "Unhealthy: " ++ toString status
  | .transportError cause => "Unreachable: " ++ cause

/-- The query object the upstream decodes on the GET path of execute_query:
the single query parameter of the request, parsed as the upstream parses it.
An echoing upstream stub hands exactly this value back. -/
def execute_query_upstream_view (cfg : Config) (query : Json) : Option Json :=
  ((execute_query_call cfg query).params.bind fun ps =>
    (ps.find? fun kv => kv.1 == "query").map fun kv => kv.2).bind Json.parse

/-- The query object the upstream decodes on the POST path of
execute_query_post: the request body as the HTTP client serializes it, parsed
as the upstream parses it, at its query key.  An echoing upstream stub hands
exactly this value back. -/
def execute_query_post_upstream_view (cfg : Config) (query : Json) : Option Json :=
  ((execute_query_post_call cfg query).body.bind fun b =>
    Json.parse (Json.dumps b)).bind fun j => j.getField "query"

/-- True when the input does not begin with a decimal digit, so it cannot
extend a decimal number read just before it. -/
def noLeadingDigit : List Char → Bool
  | [] => true
  | c :: _ => !(pyIsDigit c)

mutual

/-- Fuel measure of one value for the parser round trip: enough parser steps
to read the serialized value. -/
def sizeV : Json → Nat
  | .null => 1
  | .bool _ => 1
  | .num _ => 1
  | .str _ => 1
  | .arr xs => sizeItems xs + 1
  | .obj kvs => sizePairs kvs + 1

/-- Fuel measure of an item list. -/
def sizeItems : List Json → Nat
  | [] => 0
  | x :: xs => sizeV x + sizeItems xs + 1

/-- Fuel measure of a pair list. -/
def sizePairs : List (String × Json) → Nat
  | [] => 0
  | (_, v) :: kvs => sizeV v + sizePairs kvs + 1

end

/-! ## Character and digit lemmas -/

/-- Characters with equal code points are equal. -/
theorem charToNat_inj {c d : Char} (h : c.toNat = d.toNat) : c = d := by
  rw [← Char.ofNat_toNat c, h, Char.ofNat_toNat]

/-- Every character code point avoids the surrogate range and tops out below
0x110000. -/
theorem char_valid (c : Char) :
    c.toNat < 55296 ∨ (57343 < c.toNat ∧ c.toNat < 1114112) := c.valid

/-- The decimal digit characters are digits and carry their values. -/
theorem digitChar_spec :
    ∀ d, d < 10 → pyIsDigit (digitChar d) = true ∧ (digitChar d).toNat = 48 + d := by
  decide

/-- The hex digit characters decode to their values. -/
theorem hexVal_hexDigitChar : ∀ d, d < 16 → hexVal (hexDigitChar d) = some d := by
  decide

/-- Reading four serialized hex digits recovers the encoded code unit. -/
theorem readHexQuad_hexQuad (n : Nat) (hn : n < 65536) (rest : List Char) :
    readHexQuad (hexQuad n ++ rest) = some (n, rest) := by
  have h1 := hexVal_hexDigitChar (n / 4096 % 16) (by omega)
  have h2 := hexVal_hexDigitChar (n / 256 % 16) (by omega)
  have h3 := hexVal_hexDigitChar (n / 16 % 16) (by omega)
  have h4 := hexVal_hexDigitChar (n % 16) (by omega)
  simp only [hexQuad, List.cons_append, List.nil_append, readHexQuad, h1, h2, h3, h4]
  congr 1
  congr 1
  omega

/-- The digit characters of a number do not depend on the fuel, whenever the
fuel suffices. -/
theorem natToCharsAux_irrel :
    ∀ n fuel fuel2, n ≤ fuel → n ≤ fuel2 → natToCharsAux fuel n = natToCharsAux fuel2 n := by
  intro n
  induction n using Nat.strongRecOn with
  | _ n ih =>
    intro fuel fuel2 h1 h2
    match fuel, fuel2 with
    | 0, 0 => rfl
    | 0, f2 + 1 =>
      have hn : n = 0 := by omega
      subst hn
      simp [natToCharsAux]
    | f + 1, 0 =>
      have hn : n = 0 := by omega
      subst hn
      simp [natToCharsAux]
    | f + 1, f2 + 1 =>
      by_cases h : n < 10
      · simp [natToCharsAux, h]
      · simp only [natToCharsAux, if_neg h]
        rw [ih (n / 10) (by omega) f f2 (by omega) (by omega)]

/-- One-step unfolding of the digit characters of a number. -/
theorem natToChars_eq (n : Nat) :
    natToChars n =
      if n < 10 then [digitChar n]
      else natToChars (n / 10) ++ [digitChar (n % 10)] := by
  by_cases h : n < 10
  · rw [if_pos h]
    match n, h with
    | 0, _ => rfl
    | m + 1, h => simp [natToChars, natToCharsAux, Nat.lt_of_succ_lt_succ h]
  · rw [if_neg h]
    match n with
    | m + 1 =>
      show natToCharsAux (m + 1) (m + 1) = _
      simp only [natToCharsAux, if_neg h]
      rw [natToCharsAux_irrel ((m + 1) / 10) m ((m + 1) / 10) (by omega) (by omega)]
      rfl

/-- A number has at least one digit character. -/
theorem natToChars_ne_nil (n : Nat) : natToChars n ≠ [] := by
  rw [natToChars_eq]
  by_cases h : n < 10 <;> simp [h]

/-- Every character of a number is a decimal digit. -/
theorem natToChars_digits (n : Nat) : ∀ c ∈ natToChars n, pyIsDigit c = true := by
  induction n using Nat.strongRecOn with
  | _ n ih =>
    rw [natToChars_eq]
    by_cases h : n < 10
    · simp only [if_pos h, List.mem_singleton]
      intro c hc
      subst hc
      exact (digitChar_spec n h).1
    · simp only [if_neg h, List.mem_append, List.mem_singleton]
      intro c hc
      cases hc with
      | inl hc => exact ih (n / 10) (by omega) c hc
      | inr hc =>
        subst hc
        exact (digitChar_spec (n % 10) (by omega)).1

/-- Folding the digit characters of a number back up recovers it. -/
theorem digitsVal_natToChars (n : Nat) : digitsVal (natToChars n) = n := by
  induction n using Nat.strongRecOn with
  | _ n ih =>
    rw [natToChars_eq]
    by_cases h : n < 10
    · simp only [if_pos h, digitsVal, List.foldl_cons, List.foldl_nil]
      rw [(digitChar_spec n h).2]
      omega
    · simp only [if_neg h, digitsVal, List.foldl_append, List.foldl_cons, List.foldl_nil]
      have hv := ih (n / 10) (by omega)
      simp only [digitsVal] at hv
      rw [hv, (digitChar_spec (n % 10) (by omega)).2]
      omega

/-- A number starts with a digit character, and only zero starts with the
zero digit. -/
theorem natToChars_head (n : Nat) :
    ∃ c t, natToChars n = c :: t ∧ pyIsDigit c = true ∧ (n ≠ 0 → c.toNat ≠ 48) := by
  induction n using Nat.strongRecOn with
  | _ n ih =>
    rw [natToChars_eq]
    by_cases h : n < 10
    · refine ⟨digitChar n, [], by simp [h], (digitChar_spec n h).1, fun hn => ?_⟩
      rw [(digitChar_spec n h).2]
      omega
    · obtain ⟨c, t, hsub, hdig, hzero⟩ := ih (n / 10) (by omega)
      exact ⟨c, t ++ [digitChar (n % 10)], by simp [h, hsub], hdig,
        fun _ => hzero (by omega)⟩

/-- A digit span stops immediately when no digit leads. -/
theorem digitSpan_stop (l : List Char) (h : noLeadingDigit l = true) :
    digitSpan l = ([], l) := by
  match l with
  | [] => rfl
  | c :: t =>
    simp only [noLeadingDigit, Bool.not_eq_true'] at h
    simp [digitSpan, h]

/-- A digit span takes exactly a run of digits followed by a non-digit. -/
theorem digitSpan_run (ds : List Char) (hds : ∀ c ∈ ds, pyIsDigit c = true)
    (rest : List Char) (hrest : noLeadingDigit rest = true) :
    digitSpan (ds ++ rest) = (ds, rest) := by
  induction ds with
  | nil => simpa using digitSpan_stop rest hrest
  | cons c t ih =>
    have hc : pyIsDigit c = true := hds c (by simp)
    have ht := ih fun x hx => hds x (by simp [hx])
    simp [digitSpan, hc, ht]

/-- Reading the integer part of a serialized number recovers it, whenever the
remainder cannot extend the digit run. -/
theorem readIntPart_natToChars (n : Nat) (rest : List Char)
    (hrest : noLeadingDigit rest = true) :
    readIntPart (natToChars n ++ rest) = some (n, rest) := by
  by_cases hn : n = 0
  · subst hn
    rw [show natToChars 0 = [digitChar 0] from rfl]
    simp [readIntPart, digitChar]
  · obtain ⟨c, t, hct, hdig, hzero⟩ := natToChars_head n
    rw [hct, List.cons_append]
    have hc48 : (c.toNat = 48) = False := by simp [hzero hn]
    simp only [readIntPart, hc48, if_false, hdig, if_true]
    have htdig : ∀ x ∈ t, pyIsDigit x = true := fun x hx =>
      natToChars_digits n x (by rw [hct]; exact List.mem_cons_of_mem c hx)
    rw [digitSpan_run t htdig rest hrest]
    have hv : digitsVal (c :: t) = n := by rw [← hct]; exact digitsVal_natToChars n
    simp [hv]

/-! ## String serialization round trip -/

/-- Each encoded character spans at least one output character. -/
theorem encodeChar_length (c : Char) : 1 ≤ (encodeChar c).length := by
  unfold encodeChar
  repeat' split
  all_goals simp [hexQuad]

/-- A string body is no longer than its escaped form. -/
theorem encStrBody_length (l : List Char) : l.length < (encStrBody l).length := by
  induction l with
  | nil => simp [encStrBody]
  | cons c t ih =>
    have := encodeChar_length c
    simp only [encStrBody, List.length_append, List.length_cons]
    omega

/-- One-step reduction of the string reader on a unicode escape prefix
(definitional: the guards on the two literal characters compute). -/
theorem readStrBody_unicode (f : Nat) (t : List Char) :
    readStrBody (f + 1) ('\\' :: 'u' :: t)
      = (match readHexQuad t with
         | none => none
         | some (n, rest3) =>
           if 55296 ≤ n ∧ n ≤ 56319 then
             match rest3 with
             | '\\' :: 'u' :: rest4 =>
               match readHexQuad rest4 with
               | none => none
               | some (m, rest5) =>
                 if 56320 ≤ m ∧ m ≤ 57343 then
                   match readStrBody f rest5 with
                   | some (s, r) =>
                     some (Char.ofNat (65536 + (n - 55296) * 1024 + (m - 56320)) :: s, r)
                   | none => none
                 else none
             | _ => none
           else
             if 56320 ≤ n ∧ n ≤ 57343 then none
             else
               match readStrBody f rest3 with
               | some (s, r) => some (Char.ofNat n :: s, r)
               | none => none) := rfl

/-- One-step reduction of the string reader on an unescaped character. -/
theorem readStrBody_plain (f : Nat) (c : Char) (t : List Char)
    (h34 : c.toNat ≠ 34) (h92 : c.toNat ≠ 92) (hlow : ¬c.toNat < 32) :
    readStrBody (f + 1) (c :: t)
      = (match readStrBody f t with
         | some (s, r) => some (c :: s, r)
         | none => none) := by
  simp only [readStrBody, if_neg h34, if_neg h92, if_neg hlow]

/-- Reading an escaped string body recovers it, up to the closing quote. -/
theorem readStrBody_enc (l : List Char) :
    ∀ (fuel : Nat) (rest : List Char), l.length < fuel →
      readStrBody fuel (encStrBody l ++ rest) = some (l, rest) := by
  induction l with
  | nil =>
    intro fuel rest h
    match fuel with
    | f + 1 => simp [encStrBody, readStrBody]
  | cons c cs ih =>
    intro fuel rest h
    match fuel with
    | f + 1 =>
    have hcs : cs.length < f := by
      simp only [List.length_cons] at h
      omega
    have harg : encStrBody (c :: cs) ++ rest = encodeChar c ++ (encStrBody cs ++ rest) := by
      simp [encStrBody]
    rw [harg]
    have hih := ih f rest hcs
    by_cases h34 : c.toNat = 34
    · have hc : c = '"' := charToNat_inj (by rw [h34]; rfl)
      subst hc
      simp [encodeChar, readStrBody, unescapeChar, hih]
    · by_cases h92 : c.toNat = 92
      · have hc : c = '\\' := charToNat_inj (by rw [h92]; rfl)
        subst hc
        simp [encodeChar, readStrBody, unescapeChar, hih]
      · by_cases h8 : c.toNat = 8
        · have hc : c = Char.ofNat 8 := charToNat_inj (by rw [h8]; rfl)
          subst hc
          simp [encodeChar, readStrBody, unescapeChar, hih]
        · by_cases h9 : c.toNat = 9
          · have hc : c = '\t' := charToNat_inj (by rw [h9]; rfl)
            subst hc
            simp [encodeChar, readStrBody, unescapeChar, hih]
          · by_cases h10 : c.toNat = 10
            · have hc : c = '\n' := charToNat_inj (by rw [h10]; rfl)
              subst hc
              simp [encodeChar, readStrBody, unescapeChar, hih]
            · by_cases h12 : c.toNat = 12
              · have hc : c = Char.ofNat 12 := charToNat_inj (by rw [h12]; rfl)
                subst hc
                simp [encodeChar, readStrBody, unescapeChar, hih]
              · by_cases h13 : c.toNat = 13
                · have hc : c = '\r' := charToNat_inj (by rw [h13]; rfl)
                  subst hc
                  simp [encodeChar, readStrBody, unescapeChar, hih]
                · by_cases hlow : c.toNat < 32
                  · have henc : encodeChar c = '\\' :: 'u' :: hexQuad c.toNat := by
                      simp [encodeChar, h34, h92, h8, h9, h10, h12, h13, hlow]
                    rw [henc]
                    have hq := readHexQuad_hexQuad c.toNat (by omega) (encStrBody cs ++ rest)
                    simp only [List.cons_append, List.append_assoc] at hq ⊢
                    rw [readStrBody_unicode]
                    simp only [hq]
                    rw [if_neg (by omega), if_neg (by omega)]
                    simp only [hih, Char.ofNat_toNat]
                  · by_cases hascii : c.toNat ≤ 126
                    · have henc : encodeChar c = [c] := by
                        simp [encodeChar, h34, h92, h8, h9, h10, h12, h13, hlow, hascii]
                      rw [henc, List.cons_append, List.nil_append,
                        readStrBody_plain f c _ h34 h92 (by omega)]
                      simp only [hih]
                    · by_cases hbmp : c.toNat < 65536
                      · have hval := char_valid c
                        have henc : encodeChar c = '\\' :: 'u' :: hexQuad c.toNat := by
                          simp [encodeChar, h34, h92, h8, h9, h10, h12, h13, hlow, hascii, hbmp]
                        rw [henc]
                        have hq := readHexQuad_hexQuad c.toNat (by omega) (encStrBody cs ++ rest)
                        simp only [List.cons_append, List.append_assoc] at hq ⊢
                        rw [readStrBody_unicode]
                        simp only [hq]
                        rw [if_neg (by omega), if_neg (by omega)]
                        simp only [hih, Char.ofNat_toNat]
                      · have hval := char_valid c
                        have henc : encodeChar c =
                            '\\' :: 'u' :: (hexQuad (55296 + (c.toNat - 65536) / 1024) ++
                              ('\\' :: 'u' :: hexQuad (56320 + (c.toNat - 65536) % 1024))) := by
                          simp [encodeChar, h34, h92, h8, h9, h10, h12, h13, hlow, hascii, hbmp]
                        rw [henc]
                        have hhi : (c.toNat - 65536) / 1024 ≤ 1023 := by omega
                        have hq1 := readHexQuad_hexQuad (55296 + (c.toNat - 65536) / 1024)
                          (by omega)
                          ('\\' :: 'u' :: (hexQuad (56320 + (c.toNat - 65536) % 1024) ++
                            (encStrBody cs ++ rest)))
                        have hq2 := readHexQuad_hexQuad (56320 + (c.toNat - 65536) % 1024)
                          (by omega) (encStrBody cs ++ rest)
                        simp only [List.cons_append, List.append_assoc] at hq1 hq2 ⊢
                        rw [readStrBody_unicode]
                        simp only [hq1]
                        rw [if_pos (by omega)]
                        simp only [hq2]
                        rw [if_pos (by omega)]
                        simp only [hih]
                        have hchar : 65536 + (55296 + (c.toNat - 65536) / 1024 - 55296) * 1024 +
                            (56320 + (c.toNat - 65536) % 1024 - 56320) = c.toNat := by
                          omega
                        rw [hchar, Char.ofNat_toNat]

/-- Rebuilding a string from its characters is the identity. -/
theorem string_mk_data (s : String) : (⟨s.data⟩ : String) = s := by
  obtain ⟨l⟩ := s
  rfl

/-- Reading a serialized string after its opening quote recovers it. -/
theorem readStr_enc (s : String) (rest : List Char) :
    readStr (encStrBody s.data ++ rest) = some (s, rest) := by
  have hlen : s.data.length < (encStrBody s.data ++ rest).length + 1 := by
    have := encStrBody_length s.data
    simp only [List.length_append]
    omega
  simp only [readStr, readStrBody_enc s.data _ rest hlen, string_mk_data]

/-- Every serialized value begins with one of the eight value-starting
characters: a letter opening null, true or false, a quote, an opening bracket
or brace, a minus sign, or a digit. -/
theorem encVal_head (j : Json) :
    ∃ c t, encVal j = c :: t ∧
      (c.toNat = 110 ∨ c.toNat = 116 ∨ c.toNat = 102 ∨ c.toNat = 34 ∨
       c.toNat = 91 ∨ c.toNat = 123 ∨ c.toNat = 45 ∨
       (48 ≤ c.toNat ∧ c.toNat ≤ 57)) := by
  cases j with
  | null => exact ⟨'n', _, rfl, by decide⟩
  | bool b =>
    cases b with
    | true => exact ⟨'t', _, rfl, by decide⟩
    | false => exact ⟨'f', _, rfl, by decide⟩
  | num i =>
    by_cases hi : i < 0
    · exact ⟨'-', natToChars i.natAbs, by simp [encVal, intToChars, hi], by decide⟩
    · obtain ⟨c, t, hct, hdig, _⟩ := natToChars_head i.toNat
      refine ⟨c, t, by simp [encVal, intToChars, hi, hct], ?_⟩
      simp only [pyIsDigit, decide_eq_true_eq] at hdig
      omega
  | str s => exact ⟨'"', _, rfl, by decide⟩
  | arr xs => exact ⟨'[', _, rfl, by decide⟩
  | obj kvs => exact ⟨lbrace, _, rfl, by decide⟩

/-- Whitespace skipping does not touch a serialized value. -/
theorem skipWs_encVal (j : Json) (x : List Char) :
    skipWs (encVal j ++ x) = encVal j ++ x := by
  obtain ⟨c, t, hct, hc⟩ := encVal_head j
  rw [hct, List.cons_append]
  have hws : pyIsWs c = false := by
    simp only [pyIsWs, decide_eq_false_iff_not]
    omega
  simp [skipWs, hws]

/-- Whitespace skipping does not touch a serialized item tail. -/
theorem skipWs_encItems (xs : List Json) (x : List Char) :
    skipWs (encItems xs ++ x) = encItems xs ++ x := by
  cases xs with
  | nil => rfl
  | cons y ys =>
    simp only [encItems, List.append_assoc]
    exact skipWs_encVal y _

/-- Whitespace skipping does not touch a serialized item continuation. -/
theorem skipWs_encItemsMore (xs : List Json) (x : List Char) :
    skipWs (encItemsMore xs ++ x) = encItemsMore xs ++ x := by
  cases xs with
  | nil => rfl
  | cons y ys => rfl

/-- Whitespace skipping does not touch a serialized pair tail. -/
theorem skipWs_encPairs (kvs : List (String × Json)) (x : List Char) :
    skipWs (encPairs kvs ++ x) = encPairs kvs ++ x := by
  cases kvs with
  | nil => rfl
  | cons kv kvs' =>
    obtain ⟨k, v⟩ := kv
    rfl

/-- Whitespace skipping does not touch a serialized pair continuation. -/
theorem skipWs_encPairsMore (kvs : List (String × Json)) (x : List Char) :
    skipWs (encPairsMore kvs ++ x) = encPairsMore kvs ++ x := by
  cases kvs with
  | nil => rfl
  | cons kv kvs' =>
    obtain ⟨k, v⟩ := kv
    rfl

/-- A serialized item continuation begins with a comma or closing bracket,
never a digit. -/
theorem noLeadingDigit_encItemsMore (xs : List Json) (x : List Char) :
    noLeadingDigit (encItemsMore xs ++ x) = true := by
  cases xs with
  | nil => rfl
  | cons y ys => rfl

/-- A serialized pair continuation begins with a comma or closing brace,
never a digit. -/
theorem noLeadingDigit_encPairsMore (kvs : List (String × Json)) (x : List Char) :
    noLeadingDigit (encPairsMore kvs ++ x) = true := by
  cases kvs with
  | nil => rfl
  | cons kv kvs' =>
    obtain ⟨k, v⟩ := kv
    rfl

/-- One-step reduction of the value reader at an opening quote. -/
theorem readVal_quote (f : Nat) (t : List Char) :
    readVal (f + 1) ('"' :: t)
      = (match readStr t with
         | some (s, r) => some (.str s, r)
         | none => none) := rfl

/-- One-step reduction of the value reader at a minus sign. -/
theorem readVal_minus (f : Nat) (t : List Char) :
    readVal (f + 1) ('-' :: t)
      = (match readIntPart t with
         | some (n, r) => some (.num (-(n : Int)), r)
         | none => none) := rfl

/-- One-step reduction of the value reader at an opening bracket. -/
theorem readVal_bracket (f : Nat) (t : List Char) :
    readVal (f + 1) ('[' :: t) = readItems f (skipWs t) := rfl

/-- One-step reduction of the value reader at an opening brace. -/
theorem readVal_brace (f : Nat) (t : List Char) :
    readVal (f + 1) (lbrace :: t) = readPairs f (skipWs t) := rfl

/-- One-step reduction of the value reader at a digit. -/
theorem readVal_digit (f : Nat) (c : Char) (t : List Char)
    (hdig : pyIsDigit c = true) :
    readVal (f + 1) (c :: t)
      = (match readIntPart (c :: t) with
         | some (n, r) => some (.num (n : Int), r)
         | none => none) := by
  have hb : 48 ≤ c.toNat ∧ c.toNat ≤ 57 := by
    simpa [pyIsDigit] using hdig
  simp only [readVal]
  rw [if_neg (by omega : ¬c.toNat = 110), if_neg (by omega : ¬c.toNat = 116)]
  rw [if_neg (by omega : ¬c.toNat = 102), if_neg (by omega : ¬c.toNat = 34)]
  rw [if_neg (by omega : ¬c.toNat = 91), if_neg (by omega : ¬c.toNat = 123)]
  rw [if_neg (by omega : ¬c.toNat = 45), if_pos hdig]

/-- One-step reduction of the item reader away from a closing bracket. -/
theorem readItems_step (f : Nat) (c : Char) (t : List Char) (h : c.toNat ≠ 93) :
    readItems (f + 1) (c :: t)
      = (match readVal f (c :: t) with
         | none => none
         | some (v, r) =>
           match readItemsMore f (skipWs r) with
           | some (vs, r2) => some (.arr (v :: vs), r2)
           | none => none) := by
  simp only [readItems, if_neg h]

/-- One-step reduction of the pair reader at an opening quote. -/
theorem readPairs_quote (f : Nat) (t : List Char) :
    readPairs (f + 1) ('"' :: t)
      = (match readStr t with
         | none => none
         | some (k, r1) =>
           match skipWs r1 with
           | ':' :: r2 =>
             match readVal f (skipWs r2) with
             | none => none
             | some (v, r3) =>
               match readPairsMore f (skipWs r3) with
               | some (kvs, r4) => some (.obj ((k, v) :: kvs), r4)
               | none => none
           | _ => none) := rfl

/-- A string serialization is at least two characters long. -/
theorem encodeStr_length (s : String) : 2 ≤ (encodeStr s).length := by
  have h0 : (0 : Nat) ≤ s.data.length := Nat.zero_le _
  have := encStrBody_length s.data
  simp only [encodeStr, List.length_cons]
  omega

mutual

/-- A value needs no more parser fuel than its serialization has characters. -/
theorem sizeV_le_enc (j : Json) : sizeV j ≤ (encVal j).length := by
  cases j with
  | null => simp [sizeV, encVal]
  | bool b => cases b <;> simp [sizeV, encVal]
  | num i =>
    by_cases hi : i < 0
    · simp [sizeV, encVal, intToChars, hi]
    · have hne := natToChars_ne_nil i.toNat
      have : 0 < (natToChars i.toNat).length := List.length_pos.mpr hne
      simp only [sizeV, encVal, intToChars, if_neg hi]
      omega
  | str s =>
    have := encodeStr_length s
    simp only [sizeV, encVal]
    omega
  | arr xs =>
    have := sizeItems_le_enc xs
    simp only [sizeV, encVal, List.length_cons]
    omega
  | obj kvs =>
    have := sizePairs_le_enc kvs
    simp only [sizeV, encVal, List.length_cons]
    omega

/-- An item tail needs no more fuel than its serialization has characters. -/
theorem sizeItems_le_enc (xs : List Json) : sizeItems xs ≤ (encItems xs).length := by
  cases xs with
  | nil => simp [sizeItems, encItems]
  | cons x xs' =>
    have h1 := sizeV_le_enc x
    have h2 := sizeItemsMore_le_enc xs'
    simp only [sizeItems, encItems, List.length_append]
    omega

/-- An item continuation needs strictly less fuel than characters. -/
theorem sizeItemsMore_le_enc (xs : List Json) :
    sizeItems xs + 1 ≤ (encItemsMore xs).length := by
  cases xs with
  | nil => simp [sizeItems, encItemsMore]
  | cons x xs' =>
    have h1 := sizeV_le_enc x
    have h2 := sizeItemsMore_le_enc xs'
    simp only [sizeItems, encItemsMore, List.length_cons, List.length_append]
    omega

/-- A pair tail needs no more fuel than its serialization has characters. -/
theorem sizePairs_le_enc (kvs : List (String × Json)) :
    sizePairs kvs ≤ (encPairs kvs).length := by
  cases kvs with
  | nil => simp [sizePairs, encPairs]
  | cons kv kvs' =>
    obtain ⟨k, v⟩ := kv
    have h1 := sizeV_le_enc v
    have h2 := sizePairsMore_le_enc kvs'
    have h3 := encodeStr_length k
    simp only [sizePairs, encPairs, List.length_append, List.length_cons]
    omega

/-- A pair continuation needs strictly less fuel than characters. -/
theorem sizePairsMore_le_enc (kvs : List (String × Json)) :
    sizePairs kvs + 1 ≤ (encPairsMore kvs).length := by
  cases kvs with
  | nil => simp [sizePairs, encPairsMore]
  | cons kv kvs' =>
    obtain ⟨k, v⟩ := kv
    have h1 := sizeV_le_enc v
    have h2 := sizePairsMore_le_enc kvs'
    have h3 := encodeStr_length k
    simp only [sizePairs, encPairsMore, List.length_cons, List.length_append]
    omega

end

/-- Whitespace skipping swallows one leading space. -/
theorem skipWs_space (x : List Char) : skipWs (' ' :: x) = skipWs x := rfl

/-- Whitespace skipping does not touch a leading colon. -/
theorem skipWs_colon (x : List Char) : skipWs (':' :: x) = ':' :: x := rfl

/-- One-step reduction of the item-continuation reader at a comma. -/
theorem readItemsMore_comma (f : Nat) (t : List Char) :
    readItemsMore (f + 1) (',' :: t)
      = (match readVal f (skipWs t) with
         | none => none
         | some (v, r) =>
           match readItemsMore f (skipWs r) with
           | some (vs, r2) => some (v :: vs, r2)
           | none => none) := rfl

/-- One-step reduction of the pair-continuation reader at a comma, space and
opening quote, as the serializer writes them. -/
theorem readPairsMore_comma_quote (f : Nat) (x : List Char) :
    readPairsMore (f + 1) (',' :: ' ' :: '"' :: x)
      = (match readStr x with
         | none => none
         | some (k, r2) =>
           match skipWs r2 with
           | ':' :: r3 =>
             match readVal f (skipWs r3) with
             | none => none
             | some (v, r4) =>
               match readPairsMore f (skipWs r4) with
               | some (kvs, r5) => some ((k, v) :: kvs, r5)
               | none => none
           | _ => none) := rfl

mutual

/-- Reading a serialized value recovers it, whenever the fuel covers the value
and the remainder cannot extend a number. -/
theorem readVal_enc : ∀ (j : Json) (fuel : Nat) (rest : List Char),
    sizeV j < fuel → noLeadingDigit rest = true →
    readVal fuel (encVal j ++ rest) = some (j, rest)
  | _, 0, _, hf, _ => absurd hf (by omega)
  | .null, fuel + 1, rest, _, _ => rfl
  | .bool true, fuel + 1, rest, _, _ => rfl
  | .bool false, fuel + 1, rest, _, _ => rfl
  | .num i, fuel + 1, rest, _, hrest => by
    by_cases hi : i < 0
    · have harg : encVal (.num i) ++ rest = '-' :: (natToChars i.natAbs ++ rest) := by
        simp [encVal, intToChars, hi]
      rw [harg, readVal_minus, readIntPart_natToChars i.natAbs rest hrest]
      have hcast : -(i.natAbs : Int) = i := by omega
      simp only [hcast]
    · obtain ⟨c, t, hct, hdig, _⟩ := natToChars_head i.toNat
      have harg : encVal (.num i) ++ rest = c :: (t ++ rest) := by
        simp [encVal, intToChars, hi, hct]
      rw [harg, readVal_digit fuel c (t ++ rest) hdig,
        show c :: (t ++ rest) = natToChars i.toNat ++ rest from by rw [hct]; rfl,
        readIntPart_natToChars i.toNat rest hrest]
      have hcast : ((i.toNat : Nat) : Int) = i := by omega
      simp only [hcast]
  | .str s, fuel + 1, rest, _, _ => by
    have harg : encVal (.str s) ++ rest = '"' :: (encStrBody s.data ++ rest) := by
      simp [encVal, encodeStr]
    rw [harg, readVal_quote, readStr_enc]
  | .arr xs, fuel + 1, rest, hf, _ => by
    have harg : encVal (.arr xs) ++ rest = '[' :: (encItems xs ++ rest) := by
      simp [encVal]
    rw [harg, readVal_bracket, skipWs_encItems]
    exact readItems_enc xs fuel rest (by simp only [sizeV] at hf; omega)
  | .obj kvs, fuel + 1, rest, hf, _ => by
    have harg : encVal (.obj kvs) ++ rest = lbrace :: (encPairs kvs ++ rest) := by
      simp [encVal]
    rw [harg, readVal_brace, skipWs_encPairs]
    exact readPairs_enc kvs fuel rest (by simp only [sizeV] at hf; omega)
termination_by _ fuel _ _ _ => fuel

/-- Reading a serialized item tail after an opening bracket recovers the
array. -/
theorem readItems_enc : ∀ (xs : List Json) (fuel : Nat) (rest : List Char),
    sizeItems xs < fuel →
    readItems fuel (encItems xs ++ rest) = some (.arr xs, rest)
  | _, 0, _, hf => absurd hf (by omega)
  | [], fuel + 1, rest, _ => rfl
  | x :: xs', fuel + 1, rest, hf => by
    have hfx : sizeV x < fuel := by simp only [sizeItems] at hf; omega
    have hfxs : sizeItems xs' < fuel := by simp only [sizeItems] at hf; omega
    obtain ⟨c, t, hct, hc⟩ := encVal_head x
    have harg : encItems (x :: xs') ++ rest
        = c :: (t ++ (encItemsMore xs' ++ rest)) := by
      simp [encItems, hct]
    rw [harg, readItems_step fuel c _ (by omega),
      show c :: (t ++ (encItemsMore xs' ++ rest))
          = encVal x ++ (encItemsMore xs' ++ rest) from by rw [hct]; rfl]
    simp only [readVal_enc x fuel (encItemsMore xs' ++ rest) hfx
        (noLeadingDigit_encItemsMore xs' rest),
      skipWs_encItemsMore, readItemsMore_enc xs' fuel rest hfxs]
termination_by _ fuel _ _ => fuel

/-- Reading a serialized item continuation recovers the remaining items. -/
theorem readItemsMore_enc : ∀ (xs : List Json) (fuel : Nat) (rest : List Char),
    sizeItems xs < fuel →
    readItemsMore fuel (encItemsMore xs ++ rest) = some (xs, rest)
  | _, 0, _, hf => absurd hf (by omega)
  | [], fuel + 1, rest, _ => rfl
  | x :: xs', fuel + 1, rest, hf => by
    have hfx : sizeV x < fuel := by simp only [sizeItems] at hf; omega
    have hfxs : sizeItems xs' < fuel := by simp only [sizeItems] at hf; omega
    have harg : encItemsMore (x :: xs') ++ rest
        = ',' :: ' ' :: (encVal x ++ (encItemsMore xs' ++ rest)) := by
      simp [encItemsMore]
    rw [harg, readItemsMore_comma, skipWs_space, skipWs_encVal]
    simp only [readVal_enc x fuel (encItemsMore xs' ++ rest) hfx
        (noLeadingDigit_encItemsMore xs' rest),
      skipWs_encItemsMore, readItemsMore_enc xs' fuel rest hfxs]
termination_by _ fuel _ _ => fuel

/-- Reading a serialized pair tail after an opening brace recovers the
object. -/
theorem readPairs_enc : ∀ (kvs : List (String × Json)) (fuel : Nat) (rest : List Char),
    sizePairs kvs < fuel →
    readPairs fuel (encPairs kvs ++ rest) = some (.obj kvs, rest)
  | _, 0, _, hf => absurd hf (by omega)
  | [], fuel + 1, rest, _ => rfl
  | (k, v) :: kvs', fuel + 1, rest, hf => by
    have hfv : sizeV v < fuel := by simp only [sizePairs] at hf; omega
    have hfk : sizePairs kvs' < fuel := by simp only [sizePairs] at hf; omega
    have harg : encPairs ((k, v) :: kvs') ++ rest
        = '"' :: (encStrBody k.data ++
            (':' :: ' ' :: (encVal v ++ (encPairsMore kvs' ++ rest)))) := by
      simp [encPairs, encodeStr]
    rw [harg, readPairs_quote]
    simp only [readStr_enc k _, skipWs_colon, skipWs_space, skipWs_encVal,
      readVal_enc v fuel (encPairsMore kvs' ++ rest) hfv
        (noLeadingDigit_encPairsMore kvs' rest),
      skipWs_encPairsMore, readPairsMore_enc kvs' fuel rest hfk]
termination_by _ fuel _ _ => fuel

/-- Reading a serialized pair continuation recovers the remaining pairs. -/
theorem readPairsMore_enc : ∀ (kvs : List (String × Json)) (fuel : Nat) (rest : List Char),
    sizePairs kvs < fuel →
    readPairsMore fuel (encPairsMore kvs ++ rest) = some (kvs, rest)
  | _, 0, _, hf => absurd hf (by omega)
  | [], fuel + 1, rest, _ => rfl
  | (k, v) :: kvs', fuel + 1, rest, hf => by
    have hfv : sizeV v < fuel := by simp only [sizePairs] at hf; omega
    have hfk : sizePairs kvs' < fuel := by simp only [sizePairs] at hf; omega
    have harg : encPairsMore ((k, v) :: kvs') ++ rest
        = ',' :: ' ' :: ('"' :: (encStrBody k.data ++
            (':' :: ' ' :: (encVal v ++ (encPairsMore kvs' ++ rest))))) := by
      simp [encPairsMore, encodeStr]
    rw [harg, readPairsMore_comma_quote]
    simp only [readStr_enc k _, skipWs_colon, skipWs_space, skipWs_encVal,
      readVal_enc v fuel (encPairsMore kvs' ++ rest) hfv
        (noLeadingDigit_encPairsMore kvs' rest),
      skipWs_encPairsMore, readPairsMore_enc kvs' fuel rest hfk]
termination_by _ fuel _ _ => fuel

end

/-- The serialization round trip: parsing a dumped value recovers it exactly.
This is the property behind the GET-path and POST-path agreement of the two
query operations. -/
theorem json_parse_dumps (j : Json) : Json.parse (Json.dumps j) = some j := by
  have hfuel : sizeV j < (encVal j).length + 1 := by
    have := sizeV_le_enc j
    omega
  have hr := readVal_enc j ((encVal j).length + 1) [] hfuel rfl
  rw [List.append_nil] at hr
  have hskip : skipWs (encVal j) = encVal j := by
    have := skipWs_encVal j []
    rwa [List.append_nil] at this
  simp only [Json.parse, Json.dumps, hskip, hr]
  rfl

/-! ## Claim theorems -/

/-- Whatever survives at the head of a dropWhile fails the predicate. -/
theorem dropWhile_head_not {α : Type} (p : α → Bool) :
    ∀ (l : List α) (c : α), (l.dropWhile p).head? = some c → p c = false := by
  intro l
  induction l with
  | nil => intro c h; simp [List.dropWhile] at h
  | cons a t ih =>
    intro c h
    by_cases hp : p a
    · rw [List.dropWhile_cons, if_pos hp] at h
      exact ih c h
    · rw [List.dropWhile_cons, if_neg hp] at h
      simp only [List.head?_cons, Option.some.injEq] at h
      rw [← h]
      exact Bool.of_not_eq_true hp

/-- C1: a non-2xx upstream response whose body parses as JSON with an error
field makes make_request return the mapping with that error value as a
successful, non-raised result. -/
theorem claim1_upstream_error_as_data
    (cfg : Config) (method endpoint : String)
    (params : Option (List (String × String))) (json_data : Option Json)
    (status : Nat) (body : String) (j v : Json)
    (hstatus : ¬(200 ≤ status ∧ status < 300))
    (hparse : Json.parse body = some j)
    (herr : j.getField "error" = some v) :
    make_request cfg method endpoint params json_data (.response status body)
      = .success (.obj [("error", v)]) := by
  obtain ⟨pairs, rfl⟩ : ∃ pairs, j = .obj pairs := by
    cases j with
    | obj pairs => exact ⟨pairs, rfl⟩
    | null => simp [Json.getField] at herr
    | bool b => simp [Json.getField] at herr
    | num i => simp [Json.getField] at herr
    | str s => simp [Json.getField] at herr
    | arr xs => simp [Json.getField] at herr
  simp only [Json.getField] at herr
  simp only [make_request, if_neg hstatus, hparse, herr, Option.getD_some]

/-- C1 witness: status 404 with the not-found error body yields the
success-shaped error mapping. -/
theorem claim1_witness :
    Json.parse "\x7b\"error\": \"not found\"\x7d"
        = some (.obj [("error", .str "not found")])
    ∧ (Json.obj [("error", .str "not found")]).getField "error"
        = some (.str "not found")
    ∧ make_request defaultConfig "GET" "meta" none none
        (.response 404 "\x7b\"error\": \"not found\"\x7d")
      = .success (.obj [("error", .str "not found")]) :=
  ⟨rfl, rfl,
    claim1_upstream_error_as_data defaultConfig "GET" "meta" none none 404
      "\x7b\"error\": \"not found\"\x7d" (.obj [("error", .str "not found")])
      (.str "not found") (by decide) rfl rfl⟩

/-- C2: a non-2xx upstream response whose body is not JSON makes make_request
raise, with a message that contains the decimal status code, and return no
payload. -/
theorem claim2_non_json_error_raises
    (cfg : Config) (method endpoint : String)
    (params : Option (List (String × String))) (json_data : Option Json)
    (status : Nat) (body : String)
    (hstatus : ¬(200 ≤ status ∧ status < 300))
    (hparse : Json.parse body = none) :
    make_request cfg method endpoint params json_data (.response status body)
      = .raised ("API Request failed: "
          ++ httpStatusErrorMessage status (make_request_url cfg.baseUrl endpoint))
    ∧ ∃ pre post, "API Request failed: "
          ++ httpStatusErrorMessage status (make_request_url cfg.baseUrl endpoint)
        = pre ++ toString status ++ post := by
  constructor
  · simp only [make_request, if_neg hstatus, hparse]
  · refine ⟨"API Request failed: "
        ++ (if status < 200 then "Informational response"
            else if status < 300 then "Success"
            else if status < 400 then "Redirect response"
            else if status < 500 then "Client error"
            else "Server error") ++ " ",
      " for url " ++ make_request_url cfg.baseUrl endpoint, ?_⟩
    simp only [httpStatusErrorMessage, ← String.append_assoc]

/-- C2 witness: a 500 response with a prose body raises with the status code
in the message. -/
theorem claim2_witness :
    Json.parse "Internal Server Error" = none
    ∧ make_request defaultConfig "GET" "meta" none none
        (.response 500 "Internal Server Error")
      = .raised ("API Request failed: "
          ++ httpStatusErrorMessage 500 (make_request_url defaultConfig.baseUrl "meta"))
    ∧ ∃ pre post, "API Request failed: "
          ++ httpStatusErrorMessage 500 (make_request_url defaultConfig.baseUrl "meta")
        = pre ++ toString 500 ++ post :=
  ⟨rfl,
    (claim2_non_json_error_raises defaultConfig "GET" "meta" none none 500
      "Internal Server Error" (by decide) rfl).1,
    (claim2_non_json_error_raises defaultConfig "GET" "meta" none none 500
      "Internal Server Error" (by decide) rfl).2⟩

/-- C3: on a transport failure every operation routed through make_request
raises with the cause in the message, while check_health returns the
Unreachable string as a normal result. -/
theorem claim3_transport_failure
    (cfg : Config) (method endpoint : String)
    (params : Option (List (String × String))) (json_data : Option Json)
    (cause : String) :
    make_request cfg method endpoint params json_data (.transportError cause)
      = .raised ("Request failed: " ++ cause)
    ∧ check_health cfg (.transportError cause) = "Unreachable: " ++ cause :=
  ⟨rfl, rfl⟩

/-- C4: a non-empty token puts exactly the Content-Type and the verbatim
Authorization headers on every make_request call; an empty token sends no
Authorization header; the health check request sets no Authorization header
at all. -/
theorem claim4_headers (cfg : Config) :
    (cfg.token ≠ "" → get_headers cfg.token
        = [("Content-Type", "application/json"), ("Authorization", cfg.token)])
    ∧ (cfg.token = "" → get_headers cfg.token = [("Content-Type", "application/json")])
    ∧ (∀ method endpoint params json_data,
        (make_request_call cfg method endpoint params json_data).headers
          = get_headers cfg.token)
    ∧ (∀ v, ("Authorization", v) ∉ (check_health_call cfg).headers) := by
  refine ⟨?_, ?_, ?_, ?_⟩
  · intro h
    simp [get_headers, h]
  · intro h
    simp [get_headers, h]
  · intro _ _ _ _
    rfl
  · intro v
    simp [check_health_call]

/-- C4 witness: a concrete token appears verbatim, the empty token yields only
the Content-Type header, and the health request has no Authorization. -/
theorem claim4_witness :
    get_headers "secret-token"
        = [("Content-Type", "application/json"), ("Authorization", "secret-token")]
    ∧ get_headers "" = [("Content-Type", "application/json")]
    ∧ (∀ v, ("Authorization", v) ∉ (check_health_call defaultConfig).headers) :=
  ⟨(claim4_headers ⟨"http://localhost:4000/cubejs-api/v1", "secret-token"⟩).1
      (by decide),
    (claim4_headers defaultConfig).2.1 rfl,
    (claim4_headers defaultConfig).2.2.2⟩

/-- C5: the constructed URL is the stripped base, one slash, the stripped
endpoint, with no trailing slash left on the base part and no leading slash
left on the endpoint part, and it ignores extra slashes on either side. -/
theorem claim5_url_single_slash (base endpoint : String) :
    (make_request_url base endpoint).data
        = (pyRstripSlash base).data ++ '/' :: (pyLstripSlash endpoint).data
    ∧ (pyRstripSlash base).data.getLast? ≠ some '/'
    ∧ (pyLstripSlash endpoint).data.head? ≠ some '/'
    ∧ make_request_url (base ++ "/") endpoint = make_request_url base endpoint
    ∧ make_request_url base ("/" ++ endpoint) = make_request_url base endpoint := by
  refine ⟨?_, ?_, ?_, ?_, ?_⟩
  · simp [make_request_url, String.data_append]
  · intro h
    rw [show (pyRstripSlash base).data
        = ((base.data.reverse.dropWhile fun c => c.toNat == 47).reverse) from rfl,
      List.getLast?_eq_head?_reverse, List.reverse_reverse] at h
    have := dropWhile_head_not _ _ _ h
    simp at this
  · intro h
    have := dropWhile_head_not _ _ _ h
    simp at this
  · have hbase : pyRstripSlash (base ++ "/") = pyRstripSlash base := by
      apply congrArg String.mk
      rw [show (base ++ "/").data = base.data ++ ['/'] from rfl, List.reverse_append]
      rw [show (['/'] : List Char).reverse ++ base.data.reverse
          = '/' :: base.data.reverse from rfl]
      rw [List.dropWhile_cons, if_pos (by decide)]
    simp [make_request_url, hbase]
  · have hep : pyLstripSlash ("/" ++ endpoint) = pyLstripSlash endpoint := by
      apply congrArg String.mk
      rw [show ("/" ++ endpoint).data = '/' :: endpoint.data from rfl]
      rw [List.dropWhile_cons, if_pos (by decide)]
    simp [make_request_url, hep]

/-- C5 witness: a base with trailing slashes and an endpoint with leading
slashes join with exactly one slash. -/
theorem claim5_witness :
    make_request_url "http://localhost:4000/cubejs-api/v1//" "//meta"
      = "http://localhost:4000/cubejs-api/v1/meta"
    ∧ make_request_url ("http://h" ++ "/") "meta" = make_request_url "http://h" "meta" :=
  ⟨rfl, (claim5_url_single_slash "http://h" "meta").2.2.2.1⟩

/-- C6: check_health is total (the model returns a plain string on every
upstream outcome) and its result is exactly one of the three status strings,
with OK precisely on status 200, and its request uses the 5-second timeout. -/
theorem claim6_health_states (cfg : Config) (u : UpstreamOutcome) :
    ((∃ cause, u = .transportError cause
        ∧ check_health cfg u = "Unreachable: " ++ cause)
      ∨ (∃ status body, u = .response status body
          ∧ ((status = 200 ∧ check_health cfg u = "OK")
            ∨ (status ≠ 200 ∧ check_health cfg u = "Unhealthy: " ++ toString status))))
    ∧ (∀ status body, check_health cfg (.response status body) = "OK" ↔ status = 200)
    ∧ (check_health_call cfg).timeoutSeconds = 5 := by
  refine ⟨?_, ?_, rfl⟩
  · cases u with
    | transportError cause => exact Or.inl ⟨cause, rfl, rfl⟩
    | response status body =>
      refine Or.inr ⟨status, body, rfl, ?_⟩
      by_cases h : status = 200
      · subst h
        exact Or.inl ⟨rfl, rfl⟩
      · exact Or.inr ⟨h, by simp [check_health, h]⟩
  · intro status body
    constructor
    · intro h
      by_contra hne
      simp only [check_health, if_neg hne] at h
      have h1 : ("Unhealthy: " ++ toString status).data.head? = some 'U' := rfl
      rw [h] at h1
      exact absurd h1 (by decide)
    · intro h
      simp [check_health, h]

/-- C6 witness: the three concrete outcomes and the timeout. -/
theorem claim6_witness :
    check_health defaultConfig (.response 200 "") = "OK"
    ∧ check_health defaultConfig (.response 503 "") = "Unhealthy: 503"
    ∧ check_health defaultConfig (.transportError "connection refused")
        = "Unreachable: connection refused"
    ∧ (check_health_call defaultConfig).timeoutSeconds = 5 :=
  ⟨((claim6_health_states defaultConfig (.response 200 "")).2.1 200 "").mpr rfl,
    rfl, rfl, rfl⟩

/-- C7: the raw_request escape hatch at method get, endpoint meta, no
parameters and no body makes the very same HTTP call as list_cubes, with the
method upper-cased. -/
theorem claim7_raw_request_meta (cfg : Config) :
    raw_request_call cfg "get" "meta" none none = list_cubes_call cfg
    ∧ (raw_request_call cfg "get" "meta" none none).method = "GET" := by
  have hup : pyUpper "get" = "GET" := by decide
  constructor
  · simp only [raw_request_call, list_cubes_call, hup]
  · simp only [raw_request_call, make_request_call, hup]

/-- C8: the query object seen by an echoing upstream on the serialized GET
path equals the one seen on the JSON-body POST path: both are exactly the
caller's query object. -/
theorem claim8_get_post_agree (cfg : Config) (query : Json) :
    execute_query_upstream_view cfg query = some query
    ∧ execute_query_post_upstream_view cfg query = some query := by
  constructor
  · simp [execute_query_upstream_view, execute_query_call, make_request_call,
      List.find?, json_parse_dumps query]
  · simp [execute_query_post_upstream_view, execute_query_post_call, make_request_call,
      json_parse_dumps, Json.getField, lookupLast]

/-- C9 counterexample: a 404 response whose body parses as JSON (an empty
array) with no error field makes make_request raise, so the claim that it
never raises on any JSON body without an error field is false as stated. -/
theorem claim9_counterexample :
    Json.parse "[]" = some (.arr [])
    ∧ (Json.arr []).getField "error" = none
    ∧ make_request defaultConfig "GET" "meta" none none (.response 404 "[]")
      = .raised ("API Request failed: "
          ++ httpStatusErrorMessage 404 (make_request_url defaultConfig.baseUrl "meta")) :=
  ⟨rfl, rfl, rfl⟩

/-- C9 amended: a non-2xx response whose body parses as a JSON object with no
error field does not raise: make_request returns the success-shaped mapping
whose error value is the HTTP-error description text, which contains the
status code.  (Bodies parsing to non-object JSON raise instead.) -/
theorem claim9_amended_object_without_error
    (cfg : Config) (method endpoint : String)
    (params : Option (List (String × String))) (json_data : Option Json)
    (status : Nat) (body : String) (pairs : List (String × Json))
    (hstatus : ¬(200 ≤ status ∧ status < 300))
    (hparse : Json.parse body = some (.obj pairs))
    (hnoerr : lookupLast pairs "error" = none) :
    make_request cfg method endpoint params json_data (.response status body)
      = .success (.obj [("error",
          .str (httpStatusErrorMessage status (make_request_url cfg.baseUrl endpoint)))])
    ∧ ∃ pre post, httpStatusErrorMessage status (make_request_url cfg.baseUrl endpoint)
        = pre ++ toString status ++ post := by
  constructor
  · simp only [make_request, if_neg hstatus, hparse, hnoerr, Option.getD_none]
  · refine ⟨(if status < 200 then "Informational response"
        else if status < 300 then "Success"
        else if status < 400 then "Redirect response"
        else if status < 500 then "Client error"
        else "Server error") ++ " ",
      " for url " ++ make_request_url cfg.baseUrl endpoint, ?_⟩
    simp only [httpStatusErrorMessage, ← String.append_assoc]

/-- C9 witness for the amended claim: a 404 with an empty-object body yields
the success-shaped mapping carrying the HTTP-error text. -/
theorem claim9_witness :
    Json.parse "\x7b\x7d" = some (.obj [])
    ∧ lookupLast [] "error" = none
    ∧ make_request defaultConfig "GET" "meta" none none (.response 404 "\x7b\x7d")
      = .success (.obj [("error",
          .str (httpStatusErrorMessage 404 (make_request_url defaultConfig.baseUrl "meta")))]) :=
  ⟨rfl, rfl,
    (claim9_amended_object_without_error defaultConfig "GET" "meta" none none 404
      "\x7b\x7d" [] (by decide) rfl rfl).1⟩

/-- C10: a 2xx response with a non-JSON body makes make_request raise
(carrying the decode failure), and a 2xx response yields a success payload
only when the body is valid JSON, in which case the payload is that JSON. -/
theorem claim10_2xx_requires_json
    (cfg : Config) (method endpoint : String)
    (params : Option (List (String × String))) (json_data : Option Json)
    (status : Nat) (body : String)
    (hstatus : 200 ≤ status ∧ status < 300) :
    (Json.parse body = none →
      make_request cfg method endpoint params json_data (.response status body)
        = .raised ("Request failed: " ++ jsonDecodeMessage body))
    ∧ (∀ payload,
        make_request cfg method endpoint params json_data (.response status body)
          = .success payload → Json.parse body = some payload) := by
  constructor
  · intro hparse
    simp only [make_request, if_pos hstatus, hparse]
  · intro payload h
    simp only [make_request, if_pos hstatus] at h
    cases hp : Json.parse body with
    | none =>
      rw [hp] at h
      simp at h
    | some j =>
      rw [hp] at h
      simp only [CallOutcome.success.injEq] at h
      rw [h]

/-- C10 witness: a 200 response with a prose body raises the decode failure. -/
theorem claim10_witness :
    (200 ≤ 200 ∧ 200 < 300)
    ∧ Json.parse "oops" = none
    ∧ make_request defaultConfig "GET" "meta" none none (.response 200 "oops")
      = .raised ("Request failed: " ++ jsonDecodeMessage "oops") :=
  ⟨by decide, rfl,
    (claim10_2xx_requires_json defaultConfig "GET" "meta" none none 200 "oops"
      (by decide)).1 rfl⟩

/-- C3 witness: a concrete connection refusal raises through make_request and
turns into the Unreachable string in check_health. -/
theorem claim3_witness :
    make_request defaultConfig "GET" "meta" none none
        (.transportError "Connection refused")
      = .raised ("Request failed: " ++ "Connection refused")
    ∧ check_health defaultConfig (.transportError "Connection refused")
      = "Unreachable: " ++ "Connection refused" :=
  claim3_transport_failure defaultConfig "GET" "meta" none none "Connection refused"

/-- C7 witness: the identical call at the default configuration. -/
theorem claim7_witness :
    raw_request_call defaultConfig "get" "meta" none none = list_cubes_call defaultConfig
    ∧ (raw_request_call defaultConfig "get" "meta" none none).method = "GET" :=
  claim7_raw_request_meta defaultConfig

/-- C8 witness: a concrete query object agrees on both paths. -/
theorem claim8_witness :
    execute_query_upstream_view defaultConfig
        (.obj [("measures", .arr [.str "Stories.count"])])
      = some (.obj [("measures", .arr [.str "Stories.count"])])
    ∧ execute_query_post_upstream_view defaultConfig
        (.obj [("measures", .arr [.str "Stories.count"])])
      = some (.obj [("measures", .arr [.str "Stories.count"])]) :=
  claim8_get_post_agree defaultConfig (.obj [("measures", .arr [.str "Stories.count"])])
